/-
Verification of the interaction / visual-state core of the 3D product viewer.

The development shallowly embeds the JavaScript sources:
  * src/js/createProduct.js   (Chair: parts, hovered/clicked state, per-frame visual update)
  * src/js/interaction.js     (InteractionHandler: raycast hit testing, debounced clicks,
                               hover tracking, information panel, name formatting)
  * the camera animation module (CameraController: speed / radius setters)

Machine numbers are modelled as Nat (times in milliseconds, colors) and ℚ (scales,
normalized device coordinates, ray distances).  The browser's single-threaded timer
queue (setTimeout) is modelled explicitly: a World carries the list of pending
fire-once timers, and advancing the clock fires every due timer in fire-time order.
The Three.js raycaster is an external collaborator; it is modelled as an oracle
assigning to each part name an optional ray distance, with intersectObjects
returning the intersected parts sorted by ascending distance (the Three.js contract).
-/
import Mathlib

namespace ProductViewer

/-! ## Part and Chair data model (createProduct.js) -/

/-- One chair part: the mesh's userData (name, originalColor, description,
originalScale is always the unit scale) together with its mutable material color
and uniform scale. -/
structure Part where
  name : String
  originalColor : Nat
  description : String
  color : Nat
  scale : ℚ
deriving DecidableEq

/-- createPart: the mesh starts at its base color and unit scale. -/
def mkPart (name : String) (color : Nat) (description : String) : Part :=
  { name := name, originalColor := color, description := description,
    color := color, scale := 1 }

/-- Chair state: the parts in creation (enumeration) order plus the
hovered/clicked part names and the floating-animation clock.
(The group's floating y-offset only moves the whole group and never touches a
part's color or scale, so it is not tracked.) -/
structure Chair where
  parts : List Part
  hoveredPart : Option String
  clickedPart : Option String
  animationTime : ℚ
deriving DecidableEq

/-- createChairComponents: the ten parts in creation order with the colors and
descriptions from the source. -/
def initChair : Chair :=
  { parts :=
      [ mkPart "seat" 0x8b4513 "Main seating surface",
        mkPart "backrest" 0xa0522d "Ergonomic backrest",
        mkPart "front-left-leg" 0x654321 "Front left support leg",
        mkPart "front-right-leg" 0x654321 "Front right support leg",
        mkPart "back-left-leg" 0x654321 "Back left support leg",
        mkPart "back-right-leg" 0x654321 "Back right support leg",
        mkPart "left-armrest" 0x8b4513 "Left armrest",
        mkPart "right-armrest" 0x8b4513 "Right armrest",
        mkPart "left-support" 0x654321 "Left armrest support",
        mkPart "right-support" 0x654321 "Right armrest support" ],
    hoveredPart := none,
    clickedPart := none,
    animationTime := 0 }

/-- The per-part body of Chair.update: reset to the original color and unit
scale, then apply the hover styling (teal 0x4ecdc4, scale 1.05) when this part
is the hovered one, then the click styling (red 0xff6b6b, scale 1.1) when it is
the clicked one. -/
def updatePart (hovered clicked : Option String) (p : Part) : Part :=
  let p1 : Part := { p with color := p.originalColor, scale := 1 }
  let p2 : Part :=
    if hovered = some p.name then { p1 with color := 0x4ecdc4, scale := 1.05 } else p1
  if clicked = some p.name then { p2 with color := 0xff6b6b, scale := 1.1 } else p2

/-- Chair.update: advance the animation clock and recompute every part's visual
state from the hovered/clicked names. -/
def Chair.update (c : Chair) : Chair :=
  { c with animationTime := c.animationTime + 0.016,
           parts := c.parts.map (updatePart c.hoveredPart c.clickedPart) }

/-! ## Hit testing (interaction.js: updateMousePosition / getIntersectedObject)

The raycaster-and-camera pair is abstracted as a ray oracle: given the current
normalized device coordinates it assigns to each part name the distance at
which the ray meets that part, or none.  The Three.js intersectObjects call
returns the hit parts ordered by ascending distance. -/

/-- The renderer DOM element's bounding client rectangle. -/
structure Rect where
  left : ℚ
  top : ℚ
  width : ℚ
  height : ℚ

/-- A mouse event's client coordinates. -/
structure MouseEvt where
  clientX : ℚ
  clientY : ℚ

/-- updateMousePosition: convert client coordinates to normalized device
coordinates, each axis in [-1, 1]. -/
def updateMousePosition (rect : Rect) (e : MouseEvt) : ℚ × ℚ :=
  ( ((e.clientX - rect.left) / rect.width) * 2 - 1,
    (-((e.clientY - rect.top) / rect.height)) * 2 + 1 )

/-- A ray oracle for one instant: the ray distance at which the current ray
meets the named part, if it does. -/
abbrev RayAt := String → Option ℚ

/-- A ray oracle parametrized by the normalized device coordinates the ray is
cast through. -/
abbrev RayCast := ℚ × ℚ → RayAt

/-- Ordering of intersection records by ray distance. -/
def distLE (a b : String × ℚ) : Prop := a.2 ≤ b.2

instance : DecidableRel distLE := fun a b => inferInstanceAs (Decidable (a.2 ≤ b.2))

instance : IsTotal (String × ℚ) distLE := ⟨fun a b => le_total a.2 b.2⟩

instance : IsTrans (String × ℚ) distLE := ⟨fun _ _ _ h1 h2 => le_trans h1 h2⟩

/-- The raw intersection records of the ray against the part list. -/
def rayHits (ray : RayAt) (parts : List Part) : List (String × ℚ) :=
  parts.filterMap (fun p => (ray p.name).map (fun d => (p.name, d)))

/-- raycaster.intersectObjects: the intersections, sorted by ascending ray
distance (the Three.js contract). -/
def intersectObjects (ray : RayAt) (parts : List Part) : List (String × ℚ) :=
  List.insertionSort distLE (rayHits ray parts)

/-- getIntersectedObject: the first (nearest) intersection's part name, or none. -/
def getIntersectedObject (ray : RayAt) (parts : List Part) : Option String :=
  match intersectObjects ray parts with
  | [] => none
  | h :: _ => some h.1

/-! ## World state and event handlers (interaction.js + timer queue) -/

/-- The two kinds of fire-once timers the interaction code schedules:
the 500ms clicked-part auto-clear and the 5000ms panel auto-hide. -/
inductive TimerKind where
  | clearClicked
  | hidePanel
deriving DecidableEq

/-- A pending setTimeout callback with its absolute fire time in ms. -/
structure Timer where
  fireTime : Nat
  kind : TimerKind
deriving DecidableEq

/-- The whole single-threaded world: chair state, the InteractionHandler's
mouse NDC and debounce timestamp, the DOM panel (visibility, title, body),
the two cursor styles, the pending timer queue and a count of click sounds. -/
structure World where
  chair : Chair
  mouse : ℚ × ℚ
  lastClickTime : Nat
  panelVisible : Bool
  panelTitle : String
  panelBody : String
  cursorDom : String
  cursorBody : String
  timers : List Timer
  soundCount : Nat
deriving DecidableEq

/-- this.clickDelay = 200 (ms): the click debounce threshold. -/
def clickDelay : Nat := 200

/-- Chair.setHoveredPart: store the hovered name and set the body cursor. -/
def World.setHoveredPart (w : World) (partName : Option String) : World :=
  { w with chair := { w.chair with hoveredPart := partName },
           cursorBody := if partName.isSome then "pointer" else "default" }

/-- Chair.setClickedPart: store the clicked name and, when it is a part (not
null), schedule an unconditional 500ms auto-clear of clickedPart.  The source
closure sets this.clickedPart = null without checking which selection scheduled
it. -/
def World.setClickedPart (w : World) (now : Nat) (partName : Option String) : World :=
  let w1 : World := { w with chair := { w.chair with clickedPart := partName } }
  match partName with
  | some _ => { w1 with timers := w1.timers ++ [⟨now + 500, TimerKind.clearClicked⟩] }
  | none => w1

/-- The interaction.js partDescriptions table, in source order. -/
def partDescriptions : List (String × String) :=
  [ ("seat", "The main seating surface - crafted from solid wood"),
    ("backrest", "Ergonomic backrest for comfortable support"),
    ("front-left-leg", "Front left support leg - sturdy cylindrical design"),
    ("front-right-leg", "Front right support leg - sturdy cylindrical design"),
    ("back-left-leg", "Back left support leg - sturdy cylindrical design"),
    ("back-right-leg", "Back right support leg - sturdy cylindrical design"),
    ("left-armrest", "Left armrest for comfortable arm positioning"),
    ("right-armrest", "Right armrest for comfortable arm positioning"),
    ("left-support", "Left armrest support column"),
    ("right-support", "Right armrest support column") ]

/-- The JavaScript split on a single-character separator: "a-b".split("-")
gives ["a","b"], "".split("-") gives [""], "-".split("-") gives ["",""]. -/
def splitOnChar (sep : Char) : List Char → List (List Char)
  | [] => [[]]
  | c :: cs =>
    let rest := splitOnChar sep cs
    if c = sep then [] :: rest
    else
      match rest with
      | [] => [[c]]
      | w :: ws => (c :: w) :: ws

/-- word.charAt(0).toUpperCase() + word.slice(1); the empty word stays empty. -/
def capitalizeChars : List Char → List Char
  | [] => []
  | c :: cs => c.toUpper :: cs

/-- formatPartName: split the kebab-case name on the hyphen, capitalize each
word and join with spaces. -/
def formatPartName (partName : String) : String :=
  String.intercalate " "
    ((splitOnChar '-' partName.data).map (fun w => String.mk (capitalizeChars w)))

/-- this.partDescriptions[partName] || "Chair component".  The JavaScript ||
also falls back when the stored description is the empty string (falsy). -/
def descriptionFor (partName : String) : String :=
  match partDescriptions.find? (fun kv => kv.1 == partName) with
  | some kv => if kv.2 = "" then "Chair component" else kv.2
  | none => "Chair component"

/-- showInteractionPanel: fill the title and body, show the panel and schedule
an unconditional 5000ms auto-hide.  (The panel DOM elements are present; the
missing-element branch is a logged no-op and is outside the claims.) -/
def World.showInteractionPanel (w : World) (now : Nat) (partName : String) : World :=
  { w with panelTitle := formatPartName partName,
           panelBody := descriptionFor partName,
           panelVisible := true,
           timers := w.timers ++ [⟨now + 5000, TimerKind.hidePanel⟩] }

/-- hideInteractionPanel: hide the panel (display none, class removed). -/
def World.hideInteractionPanel (w : World) : World :=
  { w with panelVisible := false }

/-- handleMouseMove: recompute the NDC mouse position, hit-test, and set the
hovered part and cursors from the result alone. -/
def World.handleMouseMove (w : World) (ray : RayCast) (rect : Rect) (e : MouseEvt) : World :=
  let m := updateMousePosition rect e
  let w1 : World := { w with mouse := m }
  match getIntersectedObject (ray m) w1.chair.parts with
  | some partName => { w1.setHoveredPart (some partName) with cursorDom := "pointer" }
  | none => { w1.setHoveredPart none with cursorDom := "default" }

/-- handleClick: ignore the click entirely when it comes within clickDelay of
the last accepted click; otherwise record the time, hit-test, and either select
the hit part (panel + sound) or hide the panel on an empty-space click. -/
def World.handleClick (w : World) (now : Nat) (ray : RayCast) (rect : Rect) (e : MouseEvt) :
    World :=
  if now - w.lastClickTime < clickDelay then w
  else
    let w1 : World := { w with lastClickTime := now }
    let m := updateMousePosition rect e
    let w2 : World := { w1 with mouse := m }
    match getIntersectedObject (ray m) w2.chair.parts with
    | some partName =>
      let w3 := w2.setClickedPart now (some partName)
      let w4 := w3.showInteractionPanel now partName
      { w4 with soundCount := w4.soundCount + 1 }
    | none => w2.hideInteractionPanel

/-- Firing one timer callback: the 500ms closure clears clickedPart
unconditionally; the 5000ms closure hides the panel unconditionally. -/
def fireTimer (w : World) (k : TimerKind) : World :=
  match k with
  | TimerKind.clearClicked => { w with chair := { w.chair with clickedPart := none } }
  | TimerKind.hidePanel => w.hideInteractionPanel

/-- Ordering of pending timers by fire time. -/
def fireLE (a b : Timer) : Prop := a.fireTime ≤ b.fireTime

instance : DecidableRel fireLE := fun a b => inferInstanceAs (Decidable (a.fireTime ≤ b.fireTime))

instance : IsTotal Timer fireLE := ⟨fun a b => le_total a.fireTime b.fireTime⟩

instance : IsTrans Timer fireLE := ⟨fun _ _ _ h1 h2 => le_trans h1 h2⟩

/-- Fire a list of timer callbacks in order. -/
def fireAll (w : World) (l : List Timer) : World :=
  l.foldl (fun st tm => fireTimer st tm.kind) w

/-- Advance the wall clock to now: every pending timer whose fire time has been
reached fires, in fire-time order; firing a timer never schedules another. -/
def advanceTo (w : World) (now : Nat) : World :=
  let due := w.timers.filter (fun tm => tm.fireTime ≤ now)
  let pending := w.timers.filter (fun tm => now < tm.fireTime)
  fireAll { w with timers := pending } (List.insertionSort fireLE due)

/-- One externally observable input at an absolute time: a pointer move, a
pointer click, or a render frame.  Due timers fire before the input's handler
runs. -/
inductive Input where
  | move (now : Nat) (ray : RayCast) (rect : Rect) (e : MouseEvt)
  | click (now : Nat) (ray : RayCast) (rect : Rect) (e : MouseEvt)
  | frame (now : Nat)

/-- Whether an input is a pointer move. -/
def Input.isMove : Input → Bool
  | Input.move _ _ _ _ => true
  | _ => false

/-- Process one input: fire due timers, then run the handler (a frame runs the
Visual Feedback Driver Chair.update). -/
def step (w : World) (i : Input) : World :=
  match i with
  | Input.move now ray rect e => (advanceTo w now).handleMouseMove ray rect e
  | Input.click now ray rect e => (advanceTo w now).handleClick now ray rect e
  | Input.frame now =>
    let w1 := advanceTo w now
    { w1 with chair := w1.chair.update }

/-- Process a timeline of inputs in order. -/
def run (w : World) (l : List Input) : World := l.foldl step w

/-- The startup world: freshly created chair, no hover or selection, debounce
timestamp 0, panel hidden, no pending timers, no sounds. -/
def initWorld : World :=
  { chair := initChair,
    mouse := (0, 0),
    lastClickTime := 0,
    panelVisible := false,
    panelTitle := "",
    panelBody := "",
    cursorDom := "default",
    cursorBody := "default",
    timers := [],
    soundCount := 0 }

/-! ## Camera animation module (setSpeed / setRadius) -/

/-- CameraController's numeric state (the trigonometric frame update is not
needed by the claims about the setters). -/
structure CameraController where
  angle : ℚ
  radius : ℚ
  speed : ℚ
  targetY : ℚ
  isAnimating : Bool
deriving DecidableEq

/-- The constructor's animation parameters. -/
def initController : CameraController :=
  { angle := 0, radius := 8, speed := 0.5, targetY := 3, isAnimating := true }

/-- setSpeed: Math.max(0, speed). -/
def CameraController.setSpeed (c : CameraController) (speed : ℚ) : CameraController :=
  { c with speed := max 0 speed }

/-- setRadius: Math.max(2, Math.min(20, radius)), the configured [2, 20] range. -/
def CameraController.setRadius (c : CameraController) (radius : ℚ) : CameraController :=
  { c with radius := max 2 (min 20 radius) }

/-- The pure visual function of claim C4: displayed (color, scale) as a
function of the two equality flags and the base color; the selection
branch is applied last in the source and therefore wins. -/
def displayedVisual (isHovered isSelected : Bool) (baseColor : Nat) : Nat × ℚ :=
  if isSelected then (0xff6b6b, 1.1)
  else if isHovered then (0x4ecdc4, 1.05)
  else (baseColor, 1)

/-! ## Concrete fixtures for witnesses and counterexamples -/

/-- A ray (at any coordinates) meeting only the seat, at distance 1. -/
def raySeat : RayCast := fun _ nm => if nm = "seat" then some 1 else none

/-- A ray meeting only the backrest, at distance 1. -/
def rayBackrest : RayCast := fun _ nm => if nm = "backrest" then some 1 else none

/-- A ray meeting nothing (an empty-space pointer position). -/
def rayNone : RayCast := fun _ _ => none

/-- A concrete bounding rectangle for the renderer element. -/
def rect0 : Rect := ⟨0, 0, 2, 2⟩

/-- A concrete mouse event. -/
def ev0 : MouseEvt := ⟨1, 1⟩

/-- Iterate handleMouseMove over a sequence of pointer-move samples. -/
def moveFold (w : World) (l : List (RayCast × Rect × MouseEvt)) : World :=
  l.foldl (fun st me => st.handleMouseMove me.1 me.2.1 me.2.2) w

/-- A startup world in which the seat is currently hovered. -/
def worldHoverSeat : World :=
  { initWorld with chair := { initChair with hoveredPart := some "seat" } }

/-- A startup world in which the information panel is currently shown. -/
def worldPanelShown : World := { initWorld with panelVisible := true }

/-! ## Helper lemmas -/

lemma updatePart_name (hovered clicked : Option String) (p : Part) :
    (updatePart hovered clicked p).name = p.name := by
  simp only [updatePart]
  split <;> split <;> rfl

lemma updatePart_origColor (hovered clicked : Option String) (p : Part) :
    (updatePart hovered clicked p).originalColor = p.originalColor := by
  simp only [updatePart]
  split <;> split <;> rfl

lemma updatePart_idem (hovered clicked : Option String) (p : Part) :
    updatePart hovered clicked (updatePart hovered clicked p) = updatePart hovered clicked p := by
  by_cases hh : hovered = some p.name <;> by_cases hc : clicked = some p.name <;>
    simp [updatePart, hh, hc]

/-! ## Claim theorems -/

/-- Claim C3: after one Visual Feedback Driver frame update, a hovered,
unselected part shows the accent color 0x4ecdc4 at uniform scale 1.05; a
selected part shows the alert color 0xff6b6b at uniform scale 1.1 even when it
is also hovered (selection wins, being applied last); a part that is neither
shows its base color at scale 1; and the frame update applies exactly this
per-part function to every part. -/
theorem hover_selection_styling :
    (∀ (hovered clicked : Option String) (p : Part),
      (hovered = some p.name → clicked ≠ some p.name →
        (updatePart hovered clicked p).color = 0x4ecdc4 ∧
        (updatePart hovered clicked p).scale = 1.05) ∧
      (clicked = some p.name →
        (updatePart hovered clicked p).color = 0xff6b6b ∧
        (updatePart hovered clicked p).scale = 1.1) ∧
      (hovered ≠ some p.name → clicked ≠ some p.name →
        (updatePart hovered clicked p).color = p.originalColor ∧
        (updatePart hovered clicked p).scale = 1)) ∧
    ∀ (c : Chair),
      (Chair.update c).parts = c.parts.map (updatePart c.hoveredPart c.clickedPart) := by
  refine ⟨fun hovered clicked p => ⟨?_, ?_, ?_⟩, fun c => rfl⟩
  · intro h1 h2
    simp [updatePart, h1, h2]
  · intro h1
    simp [updatePart, h1]
  · intro h1 h2
    simp [updatePart, h1, h2]

/-- Witness for C3 at concrete hovered/selected combinations of the seat. -/
theorem hover_selection_styling_witness :
    (updatePart (some "seat") none (mkPart "seat" 0x8b4513 "s")).color = 0x4ecdc4 ∧
    (updatePart (some "seat") none (mkPart "seat" 0x8b4513 "s")).scale = 1.05 ∧
    (updatePart (some "seat") (some "seat") (mkPart "seat" 0x8b4513 "s")).color = 0xff6b6b ∧
    (updatePart (some "seat") (some "seat") (mkPart "seat" 0x8b4513 "s")).scale = 1.1 ∧
    (updatePart none none (mkPart "seat" 0x8b4513 "s")).color = 0x8b4513 ∧
    (updatePart none none (mkPart "seat" 0x8b4513 "s")).scale = 1 := by
  have h := hover_selection_styling.1
  have h1 := (h (some "seat") none (mkPart "seat" 0x8b4513 "s")).1 rfl (by decide)
  have h2 := (h (some "seat") (some "seat") (mkPart "seat" 0x8b4513 "s")).2.1 rfl
  have h3 := (h none none (mkPart "seat" 0x8b4513 "s")).2.2 (by decide) (by decide)
  exact ⟨h1.1, h1.2, h2.1, h2.2, h3.1, h3.2⟩

/-- Claim C4: a part's displayed color and scale after a frame update is the
pure function displayedVisual of (isHovered, isSelected, baseColor) only (the
stored base scale is the unit scale), and the per-frame reset-then-apply makes
the update idempotent on the parts' visual state. -/
theorem visual_pure_idempotent :
    (∀ (hovered clicked : Option String) (p : Part),
      ((updatePart hovered clicked p).color, (updatePart hovered clicked p).scale) =
        displayedVisual (hovered == some p.name) (clicked == some p.name) p.originalColor) ∧
    ∀ (c : Chair), (Chair.update (Chair.update c)).parts = (Chair.update c).parts := by
  constructor
  · intro hovered clicked p
    by_cases hh : hovered = some p.name <;> by_cases hc : clicked = some p.name <;>
      simp [updatePart, displayedVisual, beq_iff_eq, hh, hc]
  · intro c
    simp [Chair.update, List.map_map, Function.comp, updatePart_idem]

/-- Claim C2: a click within 200ms of the last accepted click is ignored
entirely (the state is returned unchanged: selection, hover, panel, timestamp,
timers, sound count); otherwise it is accepted and the debounce timestamp
becomes the click's time. -/
theorem click_debounce :
    ∀ (w : World) (now : Nat) (ray : RayCast) (rect : Rect) (e : MouseEvt),
      (now - w.lastClickTime < clickDelay → w.handleClick now ray rect e = w) ∧
      (¬ now - w.lastClickTime < clickDelay →
        (w.handleClick now ray rect e).lastClickTime = now) := by
  intro w now ray rect e
  constructor
  · intro h
    simp [World.handleClick, h]
  · intro h
    simp only [World.handleClick, if_neg h]
    split <;>
      simp [World.setClickedPart, World.showInteractionPanel, World.hideInteractionPanel]

/-- Witness for C2: at startup a click at t=100 is ignored and a click at
t=1000 is accepted and stores its time. -/
theorem click_debounce_witness :
    (100 - initWorld.lastClickTime < clickDelay) ∧
    initWorld.handleClick 100 rayNone rect0 ev0 = initWorld ∧
    (¬ 1000 - initWorld.lastClickTime < clickDelay) ∧
    (initWorld.handleClick 1000 rayNone rect0 ev0).lastClickTime = 1000 :=
  ⟨by decide, (click_debounce initWorld 100 rayNone rect0 ev0).1 (by decide), by decide,
    (click_debounce initWorld 1000 rayNone rect0 ev0).2 (by decide)⟩

/-- Claim C7: the panel title is the hyphen-split, word-capitalized,
space-joined part name, and the panel body is the registered description with
the total fallback "Chair component" for every unregistered name. -/
theorem panel_title_description :
    (∀ (w : World) (now : Nat) (nm : String),
      (w.showInteractionPanel now nm).panelTitle = formatPartName nm ∧
      (w.showInteractionPanel now nm).panelBody = descriptionFor nm) ∧
    formatPartName "back-right-leg" = "Back Right Leg" ∧
    ∀ nm : String, nm ∉ partDescriptions.map Prod.fst →
      descriptionFor nm = "Chair component" := by
  refine ⟨fun w now nm => ⟨rfl, rfl⟩, by decide, ?_⟩
  intro nm h
  have hfind : partDescriptions.find? (fun kv => kv.1 == nm) = none := by
    rw [List.find?_eq_none]
    intro kv hkv hbeq
    exact h (List.mem_map.mpr ⟨kv, hkv, beq_iff_eq.mp hbeq⟩)
  simp [descriptionFor, hfind]

/-- Witness for C7: the unregistered name "unknown-part" falls back to the
generic description. -/
theorem panel_title_description_witness :
    ("unknown-part" ∉ partDescriptions.map Prod.fst) ∧
    descriptionFor "unknown-part" = "Chair component" :=
  ⟨by decide, panel_title_description.2.2 "unknown-part" (by decide)⟩

/-- Claim C8: setSpeed stores max(0, input) (negative inputs clamp to 0,
non-negative inputs are kept) and setRadius clamps the input into the
configured [2, 20] range. -/
theorem camera_setter_clamps :
    ∀ (c : CameraController) (v : ℚ),
      ((c.setSpeed v).speed = max 0 v) ∧
      (v < 0 → (c.setSpeed v).speed = 0) ∧
      (0 ≤ v → (c.setSpeed v).speed = v) ∧
      ((c.setRadius v).radius = max 2 (min 20 v)) ∧
      (v < 2 → (c.setRadius v).radius = 2) ∧
      (20 < v → (c.setRadius v).radius = 20) ∧
      (2 ≤ v → v ≤ 20 → (c.setRadius v).radius = v) := by
  intro c v
  refine ⟨rfl, ?_, ?_, rfl, ?_, ?_, ?_⟩
  · intro h
    show max 0 v = 0
    exact max_eq_left h.le
  · intro h
    show max 0 v = v
    exact max_eq_right h
  · intro h
    show max 2 (min 20 v) = 2
    rw [min_eq_right (le_trans h.le (by norm_num)), max_eq_left h.le]
  · intro h
    show max 2 (min 20 v) = 20
    rw [min_eq_left h.le, max_eq_right (by norm_num : (2 : ℚ) ≤ 20)]
  · intro h2 h20
    show max 2 (min 20 v) = v
    rw [min_eq_right h20, max_eq_right h2]

/-- Witness for C8 at inputs -1 and 3 (speed) and 1, 25, 10 (radius). -/
theorem camera_setter_clamps_witness :
    ((-1 : ℚ) < 0) ∧ (initController.setSpeed (-1)).speed = 0 ∧
    ((0 : ℚ) ≤ 3) ∧ (initController.setSpeed 3).speed = 3 ∧
    ((1 : ℚ) < 2) ∧ (initController.setRadius 1).radius = 2 ∧
    ((20 : ℚ) < 25) ∧ (initController.setRadius 25).radius = 20 ∧
    ((2 : ℚ) ≤ 10) ∧ ((10 : ℚ) ≤ 20) ∧ (initController.setRadius 10).radius = 10 :=
  ⟨by decide, (camera_setter_clamps initController (-1)).2.1 (by decide),
    by decide, (camera_setter_clamps initController 3).2.2.1 (by decide),
    by decide, (camera_setter_clamps initController 1).2.2.2.2.1 (by decide),
    by decide, (camera_setter_clamps initController 25).2.2.2.2.2.1 (by decide),
    by decide, by decide,
    (camera_setter_clamps initController 10).2.2.2.2.2.2 (by decide) (by decide)⟩

/-- Claim C1 is the specification's intent, but the code violates it: the
500ms auto-clear closure scheduled by a click sets clickedPart to null without
checking which selection scheduled it.  At startup, a click on the seat at
t=1000 followed by an accepted click on the backrest at t=1300 selects the
backrest, yet when the seat's superseded timer fires at t=1500 the backrest's
selection is cleared - 200ms after the backrest's click instead of ~500ms. -/
theorem stale_deselect_timer_clears_newer_selection :
    (run initWorld [Input.click 1000 raySeat rect0 ev0,
        Input.click 1300 rayBackrest rect0 ev0]).chair.clickedPart = some "backrest" ∧
    (run initWorld [Input.click 1000 raySeat rect0 ev0,
        Input.click 1300 rayBackrest rect0 ev0,
        Input.frame 1500]).chair.clickedPart = none :=
  ⟨by decide, by decide⟩

/-! ## Helper lemmas about the handlers and the timer queue -/

lemma handleMouseMove_hovered (w : World) (ray : RayCast) (rect : Rect) (e : MouseEvt) :
    (w.handleMouseMove ray rect e).chair.hoveredPart =
      getIntersectedObject (ray (updateMousePosition rect e)) w.chair.parts := by
  simp only [World.handleMouseMove]
  split
  next partName heq =>
    simp only [World.setHoveredPart]
    exact heq.symm
  next heq =>
    simp [World.setHoveredPart]
    exact heq.symm

lemma handleMouseMove_parts (w : World) (ray : RayCast) (rect : Rect) (e : MouseEvt) :
    (w.handleMouseMove ray rect e).chair.parts = w.chair.parts := by
  simp only [World.handleMouseMove]
  split <;> simp [World.setHoveredPart]

lemma moveFold_parts (l : List (RayCast × Rect × MouseEvt)) (w : World) :
    (moveFold w l).chair.parts = w.chair.parts := by
  induction l generalizing w with
  | nil => rfl
  | cons x t ih =>
    exact (ih (w.handleMouseMove x.1 x.2.1 x.2.2)).trans
      (handleMouseMove_parts w x.1 x.2.1 x.2.2)

lemma fireTimer_hovered (w : World) (k : TimerKind) :
    (fireTimer w k).chair.hoveredPart = w.chair.hoveredPart := by
  cases k <;> rfl

lemma fireTimer_parts (w : World) (k : TimerKind) :
    (fireTimer w k).chair.parts = w.chair.parts := by
  cases k <;> rfl

lemma fireTimer_panel_false (w : World) (k : TimerKind) (h : w.panelVisible = false) :
    (fireTimer w k).panelVisible = false := by
  cases k
  · exact h
  · rfl

lemma fireTimer_clicked_none (w : World) (k : TimerKind) (h : w.chair.clickedPart = none) :
    (fireTimer w k).chair.clickedPart = none := by
  cases k
  · rfl
  · exact h

lemma fireAll_hovered (l : List Timer) (w : World) :
    (fireAll w l).chair.hoveredPart = w.chair.hoveredPart := by
  induction l generalizing w with
  | nil => rfl
  | cons a t ih => exact (ih (fireTimer w a.kind)).trans (fireTimer_hovered w a.kind)

lemma fireAll_parts (l : List Timer) (w : World) :
    (fireAll w l).chair.parts = w.chair.parts := by
  induction l generalizing w with
  | nil => rfl
  | cons a t ih => exact (ih (fireTimer w a.kind)).trans (fireTimer_parts w a.kind)

lemma fireAll_panel_false (l : List Timer) (w : World) (h : w.panelVisible = false) :
    (fireAll w l).panelVisible = false := by
  induction l generalizing w with
  | nil => exact h
  | cons a t ih => exact ih (fireTimer w a.kind) (fireTimer_panel_false w a.kind h)

lemma fireAll_clicked_none (l : List Timer) (w : World) (h : w.chair.clickedPart = none) :
    (fireAll w l).chair.clickedPart = none := by
  induction l generalizing w with
  | nil => exact h
  | cons a t ih => exact ih (fireTimer w a.kind) (fireTimer_clicked_none w a.kind h)

lemma fireAll_panel_hide :
    ∀ (l : List Timer) (w : World), (∃ tm ∈ l, tm.kind = TimerKind.hidePanel) →
      (fireAll w l).panelVisible = false := by
  intro l
  induction l with
  | nil =>
    intro w h
    obtain ⟨tm, htm, _⟩ := h
    exact absurd htm (List.not_mem_nil tm)
  | cons a t ih =>
    intro w h
    obtain ⟨tm, htm, hk⟩ := h
    rcases List.mem_cons.mp htm with heq | hmem
    · subst heq
      refine fireAll_panel_false t _ ?_
      show (fireTimer w tm.kind).panelVisible = false
      rw [hk]
      rfl
    · exact ih (fireTimer w a.kind) ⟨tm, hmem, hk⟩

lemma fireAll_clicked_clear :
    ∀ (l : List Timer) (w : World), (∃ tm ∈ l, tm.kind = TimerKind.clearClicked) →
      (fireAll w l).chair.clickedPart = none := by
  intro l
  induction l with
  | nil =>
    intro w h
    obtain ⟨tm, htm, _⟩ := h
    exact absurd htm (List.not_mem_nil tm)
  | cons a t ih =>
    intro w h
    obtain ⟨tm, htm, hk⟩ := h
    rcases List.mem_cons.mp htm with heq | hmem
    · subst heq
      refine fireAll_clicked_none t _ ?_
      show (fireTimer w tm.kind).chair.clickedPart = none
      rw [hk]
      rfl
    · exact ih (fireTimer w a.kind) ⟨tm, hmem, hk⟩

lemma advanceTo_hovered (w : World) (now : Nat) :
    (advanceTo w now).chair.hoveredPart = w.chair.hoveredPart := by
  simp only [advanceTo]
  exact fireAll_hovered _ _

lemma advanceTo_parts (w : World) (now : Nat) :
    (advanceTo w now).chair.parts = w.chair.parts := by
  simp only [advanceTo]
  exact fireAll_parts _ _

lemma advanceTo_panel_hide (w : World) (now : Nat)
    (h : ∃ tm ∈ w.timers, tm.kind = TimerKind.hidePanel ∧ tm.fireTime ≤ now) :
    (advanceTo w now).panelVisible = false := by
  obtain ⟨tm, htm, hk, hle⟩ := h
  simp only [advanceTo]
  apply fireAll_panel_hide
  refine ⟨tm, ?_, hk⟩
  rw [List.mem_insertionSort]
  exact List.mem_filter.mpr ⟨htm, decide_eq_true hle⟩

lemma advanceTo_clicked_clear (w : World) (now : Nat)
    (h : ∃ tm ∈ w.timers, tm.kind = TimerKind.clearClicked ∧ tm.fireTime ≤ now) :
    (advanceTo w now).chair.clickedPart = none := by
  obtain ⟨tm, htm, hk, hle⟩ := h
  simp only [advanceTo]
  apply fireAll_clicked_clear
  refine ⟨tm, ?_, hk⟩
  rw [List.mem_insertionSort]
  exact List.mem_filter.mpr ⟨htm, decide_eq_true hle⟩

lemma handleClick_hovered (w : World) (now : Nat) (ray : RayCast) (rect : Rect) (e : MouseEvt) :
    (w.handleClick now ray rect e).chair.hoveredPart = w.chair.hoveredPart := by
  simp only [World.handleClick]
  split
  · rfl
  · split <;>
      simp [World.setClickedPart, World.showInteractionPanel, World.hideInteractionPanel]

lemma handleClick_parts (w : World) (now : Nat) (ray : RayCast) (rect : Rect) (e : MouseEvt) :
    (w.handleClick now ray rect e).chair.parts = w.chair.parts := by
  simp only [World.handleClick]
  split
  · rfl
  · split <;>
      simp [World.setClickedPart, World.showInteractionPanel, World.hideInteractionPanel]

lemma handleClick_hit (w : World) (now : Nat) (ray : RayCast) (rect : Rect) (e : MouseEvt)
    (nm : String) (hdeb : ¬ now - w.lastClickTime < clickDelay)
    (hhit : getIntersectedObject (ray (updateMousePosition rect e)) w.chair.parts = some nm) :
    w.handleClick now ray rect e =
      { w with lastClickTime := now,
               mouse := updateMousePosition rect e,
               chair := { w.chair with clickedPart := some nm },
               panelTitle := formatPartName nm,
               panelBody := descriptionFor nm,
               panelVisible := true,
               timers := w.timers ++ [⟨now + 500, TimerKind.clearClicked⟩]
                 ++ [⟨now + 5000, TimerKind.hidePanel⟩],
               soundCount := w.soundCount + 1 } := by
  simp only [World.handleClick, if_neg hdeb]
  simp only [hhit]
  simp [World.setClickedPart, World.showInteractionPanel]

lemma chairUpdate_hovered (c : Chair) : (Chair.update c).hoveredPart = c.hoveredPart := rfl

lemma chairUpdate_clicked (c : Chair) : (Chair.update c).clickedPart = c.clickedPart := rfl

/-! ## Remaining claim theorems -/

/-- Claim C5: the hit tester tolerates an empty part list and a miss (both
yield none), returns an intersected part of minimal ray distance when it
returns a name, and the hovered part after any pointer-move sequence is
exactly the hit-test result of the last sample (hover has no memory). -/
theorem hit_test_and_hover :
    (∀ (ray : RayAt), getIntersectedObject ray [] = none) ∧
    (∀ (ray : RayAt) (parts : List Part), rayHits ray parts = [] →
      getIntersectedObject ray parts = none) ∧
    (∀ (ray : RayAt) (parts : List Part) (nm : String),
      getIntersectedObject ray parts = some nm →
      ∃ d : ℚ, (nm, d) ∈ rayHits ray parts ∧ ∀ x ∈ rayHits ray parts, d ≤ x.2) ∧
    (∀ (w : World) (l : List (RayCast × Rect × MouseEvt)) (ray : RayCast) (rect : Rect)
        (e : MouseEvt),
      (moveFold w (l ++ [(ray, rect, e)])).chair.hoveredPart =
        getIntersectedObject (ray (updateMousePosition rect e)) w.chair.parts) := by
  refine ⟨fun ray => rfl, ?_, ?_, ?_⟩
  · intro ray parts h
    simp [getIntersectedObject, intersectObjects, h]
  · intro ray parts nm h
    rcases hs : intersectObjects ray parts with _ | ⟨⟨n, d⟩, tl⟩
    · simp [getIntersectedObject, hs] at h
    · have hnm : n = nm := by
        simp [getIntersectedObject, hs] at h
        exact h
      subst hnm
      refine ⟨d, ?_, ?_⟩
      · have hmem : (n, d) ∈ intersectObjects ray parts := by
          rw [hs]
          exact List.mem_cons_self _ _
        exact (List.mem_insertionSort distLE).mp hmem
      · intro x hx
        have hx2 : x ∈ intersectObjects ray parts := (List.mem_insertionSort distLE).mpr hx
        rw [hs] at hx2
        rcases List.mem_cons.mp hx2 with heq | hmem
        · subst heq
          exact le_refl _
        · have hsorted : List.Sorted distLE ((n, d) :: tl) := by
            rw [← hs]
            exact List.sorted_insertionSort distLE (rayHits ray parts)
          exact List.rel_of_sorted_cons hsorted x hmem
  · intro w l ray rect e
    have hsplit : moveFold w (l ++ [(ray, rect, e)]) =
        (moveFold w l).handleMouseMove ray rect e := by
      simp [moveFold, List.foldl_append]
    rw [hsplit, handleMouseMove_hovered, moveFold_parts]

/-- Witness for C5: a miss yields none and a seat-only ray selects the seat,
which is among the hits at minimal distance. -/
theorem hit_test_and_hover_witness :
    (rayHits (rayNone (0, 0)) initChair.parts = []) ∧
    getIntersectedObject (rayNone (0, 0)) initChair.parts = none ∧
    (getIntersectedObject (raySeat (0, 0)) initChair.parts = some "seat") ∧
    ∃ d : ℚ, ("seat", d) ∈ rayHits (raySeat (0, 0)) initChair.parts ∧
      ∀ x ∈ rayHits (raySeat (0, 0)) initChair.parts, d ≤ x.2 :=
  ⟨by decide, hit_test_and_hover.2.1 _ _ (by decide), by decide,
    hit_test_and_hover.2.2.1 _ _ _ (by decide)⟩

/-- Claim C10: hover state is changed only by pointer-move processing —
clicks, timer fires and frame updates all preserve the hovered part, so a
hovered part stays hovered across any move-free input sequence; the frame
update itself never touches hover. -/
theorem hover_only_from_moves :
    (∀ (w : World) (i : Input), i.isMove = false →
      (step w i).chair.hoveredPart = w.chair.hoveredPart) ∧
    (∀ (w : World) (l : List Input), (∀ i ∈ l, i.isMove = false) →
      (run w l).chair.hoveredPart = w.chair.hoveredPart) ∧
    (∀ c : Chair, (Chair.update c).hoveredPart = c.hoveredPart) := by
  have hstep : ∀ (w : World) (i : Input), i.isMove = false →
      (step w i).chair.hoveredPart = w.chair.hoveredPart := by
    intro w i hi
    cases i with
    | move now ray rect e => simp [Input.isMove] at hi
    | click now ray rect e =>
      simp only [step]
      rw [handleClick_hovered, advanceTo_hovered]
    | frame now =>
      simp only [step]
      rw [chairUpdate_hovered, advanceTo_hovered]
  refine ⟨hstep, ?_, fun c => rfl⟩
  intro w l
  induction l generalizing w with
  | nil => intro _; rfl
  | cons x t ih =>
    intro h
    have hx := h x (List.mem_cons_self x t)
    have ht : ∀ i ∈ t, i.isMove = false := fun i hi => h i (List.mem_cons_of_mem x hi)
    exact (ih (step w x) ht).trans (hstep w x hx)

/-- Witness for C10: with the seat hovered, a click plus a frame 500ms later
leave the seat hovered. -/
theorem hover_only_from_moves_witness :
    (∀ i ∈ [Input.click 1000 raySeat rect0 ev0, Input.frame 1500], i.isMove = false) ∧
    (run worldHoverSeat [Input.click 1000 raySeat rect0 ev0,
        Input.frame 1500]).chair.hoveredPart = some "seat" :=
  ⟨by decide, hover_only_from_moves.2.1 worldHoverSeat _ (by decide)⟩

/-- Counterexample to claim C6: the panel is shown by a click at t=1000 and
again by an accepted click on another part at t=4000; with no empty-space
click anywhere, the first show's timer hides the panel at t=6000 — only
2000ms after the latest show, not 5000ms. -/
theorem panel_hides_early_on_stacked_shows :
    (run initWorld [Input.click 1000 raySeat rect0 ev0, Input.click 4000 rayBackrest rect0 ev0,
        Input.frame 5999]).panelVisible = true ∧
    (run initWorld [Input.click 1000 raySeat rect0 ev0, Input.click 4000 rayBackrest rect0 ev0,
        Input.frame 6000]).panelVisible = false :=
  ⟨by decide, by decide⟩

/-- Claim C6 amended: every accepted part click schedules a panel auto-hide
5000ms later and a selection auto-clear 500ms later; pending timers are not
cancelled, so the panel hides when the earliest outstanding auto-hide fires —
possibly sooner than 5000ms after the latest show.  After an accepted part
click followed 5000ms later by a frame with no input in between, the panel is
hidden, the selection is cleared, and — provided the part is not still hovered
— its styling is back to the base color and scale 1. -/
theorem panel_autohide_amended :
    ∀ (w : World) (now : Nat) (ray : RayCast) (rect : Rect) (e : MouseEvt) (nm : String),
      ¬ now - w.lastClickTime < clickDelay →
      getIntersectedObject (ray (updateMousePosition rect e)) w.chair.parts = some nm →
      w.chair.hoveredPart ≠ some nm →
      ((⟨now + 5000, TimerKind.hidePanel⟩ : Timer) ∈ (w.handleClick now ray rect e).timers) ∧
      ((⟨now + 500, TimerKind.clearClicked⟩ : Timer) ∈ (w.handleClick now ray rect e).timers) ∧
      (step (w.handleClick now ray rect e) (Input.frame (now + 5000))).panelVisible = false ∧
      (step (w.handleClick now ray rect e) (Input.frame (now + 5000))).chair.clickedPart =
        none ∧
      (∀ p ∈ (step (w.handleClick now ray rect e) (Input.frame (now + 5000))).chair.parts,
        p.name = nm → p.color = p.originalColor ∧ p.scale = 1) := by
  intro w now ray rect e nm hdeb hhit hnohover
  have hclick := handleClick_hit w now ray rect e nm hdeb hhit
  have htimers : (w.handleClick now ray rect e).timers =
      w.timers ++ [⟨now + 500, TimerKind.clearClicked⟩] ++ [⟨now + 5000, TimerKind.hidePanel⟩] := by
    rw [hclick]
  have hmemhide : (⟨now + 5000, TimerKind.hidePanel⟩ : Timer) ∈
      (w.handleClick now ray rect e).timers := by
    rw [htimers]
    simp
  have hmemclear : (⟨now + 500, TimerKind.clearClicked⟩ : Timer) ∈
      (w.handleClick now ray rect e).timers := by
    rw [htimers]
    simp
  have hpanel : (step (w.handleClick now ray rect e) (Input.frame (now + 5000))).panelVisible =
      false := by
    simp only [step]
    exact advanceTo_panel_hide _ _ ⟨_, hmemhide, rfl, le_refl _⟩
  have hclear : (advanceTo (w.handleClick now ray rect e) (now + 5000)).chair.clickedPart =
      none := by
    refine advanceTo_clicked_clear _ _ ⟨_, hmemclear, rfl, ?_⟩
    show now + 500 ≤ now + 5000
    omega
  have hhov : (advanceTo (w.handleClick now ray rect e) (now + 5000)).chair.hoveredPart =
      w.chair.hoveredPart := by
    rw [advanceTo_hovered, handleClick_hovered]
  have hparts : (advanceTo (w.handleClick now ray rect e) (now + 5000)).chair.parts =
      w.chair.parts := by
    rw [advanceTo_parts, handleClick_parts]
  refine ⟨hmemhide, hmemclear, hpanel, ?_, ?_⟩
  · simp only [step]
    rw [chairUpdate_clicked]
    exact hclear
  · intro p hp hpname
    simp only [step] at hp
    simp only [Chair.update, List.mem_map] at hp
    obtain ⟨q, hq, hpq⟩ := hp
    have hqname : q.name = nm := by
      rw [← hpq] at hpname
      rwa [updatePart_name] at hpname
    have hhovq : (advanceTo (w.handleClick now ray rect e) (now + 5000)).chair.hoveredPart ≠
        some q.name := by
      rw [hhov, hqname]
      exact hnohover
    have hclearq : (advanceTo (w.handleClick now ray rect e) (now + 5000)).chair.clickedPart ≠
        some q.name := by
      rw [hclear]
      exact fun hcon => Option.noConfusion hcon
    rw [← hpq]
    constructor
    · rw [updatePart_origColor]
      simp [updatePart, hhovq, hclearq]
    · simp [updatePart, hhovq, hclearq]

/-- Witness for C6 amended: at startup, a seat click at t=1000 schedules the
auto-hide for t=6000, and the frame at t=6000 finds the panel hidden and the
selection cleared. -/
theorem panel_autohide_amended_witness :
    (¬ 1000 - initWorld.lastClickTime < clickDelay) ∧
    (getIntersectedObject (raySeat (updateMousePosition rect0 ev0)) initWorld.chair.parts =
      some "seat") ∧
    (initWorld.chair.hoveredPart ≠ some "seat") ∧
    ((⟨6000, TimerKind.hidePanel⟩ : Timer) ∈
      (initWorld.handleClick 1000 raySeat rect0 ev0).timers) ∧
    (step (initWorld.handleClick 1000 raySeat rect0 ev0) (Input.frame 6000)).panelVisible =
      false ∧
    (step (initWorld.handleClick 1000 raySeat rect0 ev0)
      (Input.frame 6000)).chair.clickedPart = none := by
  have h := panel_autohide_amended initWorld 1000 raySeat rect0 ev0 "seat" (by decide)
    (by decide) (by decide)
  exact ⟨by decide, by decide, by decide, h.1, h.2.2.1, h.2.2.2.1⟩

/-- Counterexample to claim C9: an accepted empty-space click does not mutate
panel visibility only — at startup with the panel shown, the click at t=1000
also updates the debounce timestamp (and the stored pointer coordinates), so
the resulting world differs from the input world with just the panel hidden. -/
theorem emptyspace_click_not_panel_only :
    worldPanelShown.handleClick 1000 rayNone rect0 ev0 ≠
      { worldPanelShown with panelVisible := false } :=
  fun h => absurd (congrArg World.lastClickTime h) (by decide)

/-- Claim C9 amended: an accepted click whose hit test returns no part hides
the panel immediately and leaves selection and hover (and everything else
except panel visibility, the debounce timestamp and the stored pointer
coordinates) unchanged: the result is exactly the input world with the panel
hidden, the timestamp set to the click time and the mouse position updated. -/
theorem emptyspace_click_frame :
    ∀ (w : World) (now : Nat) (ray : RayCast) (rect : Rect) (e : MouseEvt),
      ¬ now - w.lastClickTime < clickDelay →
      getIntersectedObject (ray (updateMousePosition rect e)) w.chair.parts = none →
      w.handleClick now ray rect e =
        { w with panelVisible := false, lastClickTime := now,
                 mouse := updateMousePosition rect e } := by
  intro w now ray rect e hdeb hmiss
  simp only [World.handleClick, if_neg hdeb]
  simp only [hmiss]
  simp [World.hideInteractionPanel]

/-- Witness for C9 amended: the startup world with an empty-space click at
t=1000. -/
theorem emptyspace_click_frame_witness :
    (¬ 1000 - initWorld.lastClickTime < clickDelay) ∧
    (getIntersectedObject (rayNone (updateMousePosition rect0 ev0)) initWorld.chair.parts =
      none) ∧
    initWorld.handleClick 1000 rayNone rect0 ev0 =
      { initWorld with panelVisible := false,
                       lastClickTime := 1000,
                       mouse := updateMousePosition rect0 ev0 } :=
  ⟨by decide, by decide,
    emptyspace_click_frame initWorld 1000 rayNone rect0 ev0 (by decide) (by decide)⟩

end ProductViewer
